import Mathlib

/-!
Verification of the color-palette converter `cconv.py`.

The source program is shallowly embedded: Python strings are modelled as
`List Char` (with thin `String` wrappers), Python `None`-able results as
`Option`, exceptions as `Except Unit`, and the program's IEEE-754 float
arithmetic as exact rational arithmetic over `ℚ` together with an explicit
model of Python's `round(x, ndigits)`.
-/

/-- Hex-digit test, mirroring the regular-expression class `[0-9A-Fa-f]`
used by `normalize_hex`. -/
def isHexDig (c : Char) : Bool :=
  c.isDigit || ('a' ≤ c && c ≤ 'f') || ('A' ≤ c && c ≤ 'F')

/-- Duplicate every character in order, mirroring
`"".join(c * 2 for c in hex_clean)`. -/
def dupChars : List Char → List Char
  | [] => []
  | c :: r => c :: c :: dupChars r

/-- List-level model of `normalize_hex`: keep only hex digits, accept exactly
3 (duplicating each digit) or exactly 6 of them, lowercase and prefix `#`.
`none` models Python's `return None`. -/
def normalize_hexL (s : List Char) : Option (List Char) :=
  let hex_clean := s.filter isHexDig
  if hex_clean.length = 3 then
    some ('#' :: (dupChars hex_clean).map Char.toLower)
  else if hex_clean.length = 6 then
    some ('#' :: hex_clean.map Char.toLower)
  else
    none

/-- String wrapper of `normalize_hexL`. -/
def normalize_hex (s : String) : Option String :=
  (normalize_hexL s.data).map List.asString

/-- Characters removed by `text.lstrip(";#|: \t")` in `extract_hex`. -/
def isSepChar (c : Char) : Bool :=
  c == ';' || c == '#' || c == '|' || c == ':' || c == ' ' || c == '\t'

/-- The descending loop of `extract_hex`: `for i in range(min(7, len(text)), 0, -1)`,
trying prefix lengths `i, i - 1, ..., 1` and returning the first success. -/
def extract_hex_loop (t : List Char) : Nat → Option (List Char)
  | 0 => none
  | i + 1 =>
    match normalize_hexL (t.take (i + 1)) with
    | some h => some h
    | none => extract_hex_loop t i

/-- List-level model of `extract_hex`. -/
def extract_hexL (s : List Char) : Option (List Char) :=
  let t := s.dropWhile isSepChar
  extract_hex_loop t (min 7 t.length)

/-- String wrapper of `extract_hexL`. -/
def extract_hex (s : String) : Option String :=
  (extract_hexL s.data).map List.asString

/-- Value of a single hex digit, as Python's `int` accepts them in base 16. -/
def hexVal (c : Char) : Option Nat :=
  if c.isDigit then some (c.toNat - 48)
  else if 'a' ≤ c && c ≤ 'f' then some (c.toNat - 87)
  else if 'A' ≤ c && c ≤ 'F' then some (c.toNat - 55)
  else none

/-- Accumulating loop for base-16 parsing. -/
def parseHexAux : List Char → Nat → Option Nat
  | [], acc => some acc
  | c :: r, acc =>
    match hexVal c with
    | some v => parseHexAux r (16 * acc + v)
    | none => none

/-- Model of Python `int(s, 16)` on plain hex-digit strings: `none` models the
`ValueError` raised on the empty string or on a non-hex-digit character.
(Sign characters, inner whitespace and `0x` prefixes, which Python's `int`
would also accept, never occur in the slices `hex_to_rgb` takes.) -/
def parseHexNat : List Char → Option Nat
  | [] => none
  | l => parseHexAux l 0

/-- List-level model of `hex_to_rgb`: strip leading `#`, duplicate a 3-digit
form, then parse the slices `h[0:2]`, `h[2:4]`, `h[4:6]` in base 16. -/
def hex_to_rgbL (s : List Char) : Option (Nat × Nat × Nat) :=
  let h0 := s.dropWhile (fun c => c == '#')
  let h := if h0.length = 3 then dupChars h0 else h0
  match parseHexNat (h.take 2), parseHexNat ((h.drop 2).take 2),
      parseHexNat ((h.drop 4).take 2) with
  | some r, some g, some b => some (r, g, b)
  | _, _, _ => none

/-- String wrapper of `hex_to_rgbL`. -/
def hex_to_rgb (s : String) : Option (Nat × Nat × Nat) :=
  hex_to_rgbL s.data

/-- Lowercase hex digit of a value below 16. Spec-side helper: part of the
canonical `#rrggbb` form the spec describes. -/
def hexDigitChar (n : Nat) : Char :=
  if n < 10 then Char.ofNat (48 + n) else Char.ofNat (87 + n)

/-- Two lowercase hex digits of a byte value (spec-side canonical form). -/
def toHex2 (n : Nat) : List Char :=
  [hexDigitChar (n / 16), hexDigitChar (n % 16)]

/-- The canonical lowercase `#rrggbb` string of an RGB triple. This follows
the spec's words for the canonical hex form and is compared against the
source-derived `hex_to_rgb` in the round-trip claim. -/
def canonicalHexOfRgb (r g b : Nat) : String :=
  List.asString ('#' :: (toHex2 r ++ toHex2 g ++ toHex2 b))

/-- Decidable equality for `Except`, so that concrete parser runs can be
settled by `decide`. -/
instance exceptDecEq {ε α : Type} [DecidableEq ε] [DecidableEq α] :
    DecidableEq (Except ε α) := fun x y =>
  match x, y with
  | .error a, .error b => decidable_of_iff (a = b) (by simp)
  | .ok a, .ok b => decidable_of_iff (a = b) (by simp)
  | .error _, .ok _ => .isFalse (by simp)
  | .ok _, .error _ => .isFalse (by simp)

/-- Parsed record produced by both parser variants: the Python dict
`\x7b"id": ..., "name": ..., "color": ...\x7d` appended to `colors`. -/
structure ColorRecord where
  id : String
  name : String
  color : String
deriving DecidableEq

/-- JSON values as `json.load` produces them. Numbers are modelled as
integers; no claim exercises a fractional JSON number. -/
inductive JVal where
  | null : JVal
  | bool : Bool → JVal
  | num : Int → JVal
  | str : String → JVal
  | arr : List JVal → JVal
  | obj : List (String × JVal) → JVal

/-- Python falsiness, as tested by `if not color_value`: `None`, `False`,
zero, the empty string, the empty list and the empty dict are falsy. -/
def jFalsy : JVal → Bool
  | .null => true
  | .bool b => !b
  | .num n => n == 0
  | .str s => s.isEmpty
  | .arr l => l.isEmpty
  | .obj l => l.isEmpty

/-- Python `str()` of a JSON value, as applied to the `id` and `name` fields.
Container reprs are abbreviated: no claim applies `str()` to a list or dict. -/
def pyStr : JVal → String
  | .null => "None"
  | .bool b => if b then "True" else "False"
  | .num n => toString n
  | .str s => s
  | .arr _ => "[...]"
  | .obj _ => "\x7b...\x7d"

/-- Python `f"\x7bi:03d\x7d"`: decimal digits zero-padded to width 3. -/
def pad3 (i : Nat) : String :=
  let s := toString i
  List.asString (List.replicate (3 - s.length) '0' ++ s.data)

/-- Model of `key in item` followed by `item[key]` on a Python dict. JSON
objects have unique keys, so the first matching entry is the value. -/
def jlookup (kvs : List (String × JVal)) (k : String) : Option JVal :=
  match kvs.find? (fun p => p.1 == k) with
  | some p => some p.2
  | none => none

/-- The `for key in ["color", "hex", "value"]` lookup loop with its `break`:
the value of the first key that is present, whatever that value is. -/
def findColorValue (kvs : List (String × JVal)) : Option JVal :=
  match jlookup kvs "color" with
  | some v => some v
  | none =>
    match jlookup kvs "hex" with
    | some v => some v
    | none => jlookup kvs "value"

/-- One iteration of the `parse_json_file` loop at 1-based position `i`.
`.ok none` models `continue` (item skipped), `.ok (some rec)` a record
appended to `colors`, and `.error ()` the uncaught `TypeError` that `re.sub`
raises when `normalize_hex` receives a truthy non-string color value. -/
def itemStep (i : Nat) (item : JVal) : Except Unit (Option ColorRecord) :=
  match item with
  | .obj kvs =>
    let cv := findColorValue kvs
    if (match cv with | none => true | some v => jFalsy v) then
      .ok none
    else
      match cv with
      | some (.str s) =>
        match normalize_hex s with
        | none => .ok none
        | some hex =>
          let cid := match jlookup kvs "id" with
            | some v => pyStr v
            | none => pad3 i
          let cname := match jlookup kvs "name" with
            | some v => pyStr v
            | none => hex
          .ok (some ⟨cid, cname, hex⟩)
      | _ => .error ()
  | _ => .ok none

/-- The whole `parse_json_file` loop, enumerating items from 1-based
position `i`; an exception at any item aborts the batch. -/
def parseGo (i : Nat) : List JVal → Except Unit (List ColorRecord)
  | [] => .ok []
  | item :: rest =>
    match itemStep i item with
    | .error e => .error e
    | .ok r =>
      match parseGo (i + 1) rest with
      | .error e => .error e
      | .ok rs => .ok (match r with | some c => c :: rs | none => rs)

/-- Model of `parse_json_file` applied to an already-loaded JSON array. -/
def parse_json_file (data : List JVal) : Except Unit (List ColorRecord) :=
  parseGo 1 data

/-- Split a character list at every character satisfying `p`, keeping empty
segments; the separator characters themselves are dropped. -/
def splitBy (p : Char → Bool) : List Char → List (List Char)
  | [] => [[]]
  | c :: rest =>
    let r := splitBy p rest
    if p c then [] :: r
    else
      match r with
      | [] => [[c]]
      | l :: ls => (c :: l) :: ls

/-- Model of `readlines` on `\n`-terminated text: a trailing newline does not
open an extra empty line, and an empty file has no lines. Each line is kept
without its `\n`; the loop strips every line before use, so this loses
nothing. -/
def pyReadlines (l : List Char) : List (List Char) :=
  if l.isEmpty then []
  else
    let parts := splitBy (fun c => c == '\n') l
    if parts.getLast? = some [] then parts.dropLast else parts

/-- Python whitespace, for `str.strip()` and no-argument `str.split()`. -/
def pyIsSpace (c : Char) : Bool :=
  c == ' ' || c == '\t' || c == '\n' || c == '\r' || c == '\x0b' || c == '\x0c'

/-- Model of `str.strip()`. -/
def pyStrip (l : List Char) : List Char :=
  ((l.dropWhile pyIsSpace).reverse.dropWhile pyIsSpace).reverse

/-- Model of no-argument `str.split()`: split on whitespace runs, dropping
empty segments. -/
def pySplitWs (l : List Char) : List (List Char) :=
  (splitBy pyIsSpace l).filter (fun seg => !seg.isEmpty)

/-- Model of `" ".join(parts)`. -/
def joinSpace : List (List Char) → List Char
  | [] => []
  | [x] => x
  | x :: xs => x ++ ' ' :: joinSpace xs

/-- One iteration of the `parse_text_file` loop at 1-based line number `i`;
`none` models `continue`. -/
def textStep (i : Nat) (rawLine : List Char) : Option ColorRecord :=
  let line := pyStrip rawLine
  if line.isEmpty || (match line with | '#' :: _ => true | _ => false) then
    none
  else
    match pySplitWs line with
    | [] => none
    | first :: name_parts =>
      match extract_hexL first with
      | none => none
      | some hex =>
        let color_name :=
          if name_parts.isEmpty then hex else joinSpace name_parts
        some ⟨pad3 i, List.asString color_name, List.asString hex⟩

/-- The whole `parse_text_file` loop, from 1-based line number `i`. -/
def textGo (i : Nat) : List (List Char) → List ColorRecord
  | [] => []
  | line :: rest =>
    match textStep i line with
    | some c => c :: textGo (i + 1) rest
    | none => textGo (i + 1) rest

/-- Model of `parse_text_file` applied to the file's text content. -/
def parse_text_file (s : String) : List ColorRecord :=
  textGo 1 (pyReadlines s.data)

/-- Model of Python `round(x, 1)` over exact rationals: round `10 * x` to the
nearest integer and divide by 10. Mathlib's `round` resolves ties upward
where Python resolves them to even; no value in this development hits a tie. -/
def round1 (q : ℚ) : ℚ :=
  ((round (10 * q) : ℤ) : ℚ) / 10

/-- Model of Python `round(x, 4)`, used for `rgb_norm`. -/
def round4 (q : ℚ) : ℚ :=
  ((round (10000 * q) : ℤ) : ℚ) / 10000

/-- Body of `rgb_to_hsl` after the channels have been scaled to `[0,1]`:
max/min lightness, saturation branching on `l > 0.5`, six-sector hue, all
three outputs rounded to one decimal. -/
def rgb_to_hsl_core (r g b : ℚ) : ℚ × ℚ × ℚ :=
  let mx := max r (max g b)
  let mn := min r (min g b)
  let l := (mx + mn) / 2
  if mx = mn then
    (round1 (0 * 360), round1 (0 * 100), round1 (l * 100))
  else
    let d := mx - mn
    let s := if l > 1 / 2 then d / (2 - mx - mn) else d / (mx + mn)
    let h :=
      (if mx = r then (g - b) / d + (if g < b then 6 else 0)
       else if mx = g then (b - r) / d + 2
       else (r - g) / d + 4) / 6
    (round1 (h * 360), round1 (s * 100), round1 (l * 100))

/-- Model of `rgb_to_hsl` over exact rationals:
`r, g, b = [x / 255.0 for x in rgb]` followed by the HSL body. -/
def rgb_to_hsl (rgb : Nat × Nat × Nat) : ℚ × ℚ × ℚ :=
  rgb_to_hsl_core ((rgb.1 : ℚ) / 255) ((rgb.2.1 : ℚ) / 255) ((rgb.2.2 : ℚ) / 255)

/-- The luminance expression inlined in `convert_file`:
`0.2126 * rgb[0] + 0.7152 * rgb[1] + 0.0722 * rgb[2]`, exact. -/
def lumRaw (rgb : Nat × Nat × Nat) : ℚ :=
  (0.2126 : ℚ) * rgb.1 + (0.7152 : ℚ) * rgb.2.1 + (0.0722 : ℚ) * rgb.2.2

/-- The extended fields attached when `cut` is false. The `hsv`, `lab` and
`cmyk` fields are total computations referenced by no claim; they are left
out of the embedding, which changes no control flow and no other field. -/
structure Extras where
  luminance : ℚ
  is_light : Bool
deriving DecidableEq

/-- One output record of `convert_file`. -/
structure EnrichedColor where
  id : String
  name : String
  hex : String
  rgb : Nat × Nat × Nat
  rgb_norm : ℚ × ℚ × ℚ
  hsl : ℚ × ℚ × ℚ
  extras : Option Extras
deriving DecidableEq

/-- Body of the `try` block of `convert_file` for one record; `none` models a
caught exception (record dropped with a warning). With hex parsing made
explicit, parsing `item["color"]` is the only fallible step. -/
def enrichRecord (cut : Bool) (item : ColorRecord) : Option EnrichedColor :=
  match hex_to_rgb item.color with
  | none => none
  | some rgb =>
    some
      { id := item.id
        name := item.name
        hex := item.color
        rgb := rgb
        rgb_norm := (round4 ((rgb.1 : ℚ) / 255), round4 ((rgb.2.1 : ℚ) / 255),
          round4 ((rgb.2.2 : ℚ) / 255))
        hsl := rgb_to_hsl rgb
        extras :=
          if cut then none
          else some { luminance := round1 (lumRaw rgb),
                      is_light := decide (lumRaw rgb > 128) } }

/-- Outcome of `convert_file` after parsing: `success` is the returned
boolean, and `written = some out` exactly when the output file was written,
with content `out`. -/
structure RunResult where
  success : Bool
  written : Option (List EnrichedColor)
deriving DecidableEq

/-- The part of `convert_file` after the parser call: the zero-record check
(`return False` with nothing written) followed by the per-record conversion
loop and the unconditional write of the collected list. -/
def convertStage (colors : List ColorRecord) (cut : Bool) : RunResult :=
  if colors.isEmpty then ⟨false, none⟩
  else ⟨true, some (colors.filterMap (enrichRecord cut))⟩

/-- An input source together with the parser `convert_file` chooses for it:
`parse_json_file` for a `.json` suffix, `parse_text_file` otherwise. -/
inductive SourceFile where
  | json : List JVal → SourceFile
  | text : String → SourceFile

/-- Parser dispatch of `convert_file`; a text source cannot raise. -/
def parseSource : SourceFile → Except Unit (List ColorRecord)
  | .json d => parse_json_file d
  | .text s => .ok (parse_text_file s)

/-- Model of `convert_file` on an existing input file: parse, then
`convertStage`; an uncaught parser exception propagates. -/
def convert_file (src : SourceFile) (cut : Bool) : Except Unit RunResult :=
  match parseSource src with
  | .error e => .error e
  | .ok colors => .ok (convertStage colors cut)

/-- Exit status `main` derives from the boolean `convert_file` returns:
`return 0 if success else 1`. -/
def exitOf (r : RunResult) : Nat :=
  if r.success then 0 else 1

/-- Overall exit status of `main` on an existing input file; an uncaught
exception also leaves a non-zero interpreter exit status. -/
def runExit (src : SourceFile) (cut : Bool) : Nat :=
  match convert_file src cut with
  | .ok r => exitOf r
  | .error _ => 1

/-- Descending list `[n, n-1, ..., 1]` of candidate prefix lengths, the
spec's description of the extraction loop. -/
def descList : Nat → List Nat
  | 0 => []
  | n + 1 => (n + 1) :: descList n

/-!  Theorems. Helper lemmas first, then one theorem (with its witness or
counterexample where required) per verified claim. -/

/-- Compute `round` on a concrete rational from the two floor bounds. -/
theorem round_rat_eq (q : ℚ) (n : ℤ) (h1 : (n : ℚ) ≤ q + 1 / 2)
    (h2 : q + 1 / 2 < (n : ℚ) + 1) : round q = n := by
  rw [round_eq]
  exact Int.floor_eq_iff.mpr ⟨h1, h2⟩

theorem extract_hex_loop_eq_findSome (t : List Char) :
    ∀ i, extract_hex_loop t i =
      (descList i).findSome? (fun L => normalize_hexL (t.take L)) := by
  intro i
  induction i with
  | zero => rfl
  | succ n ih =>
    cases h : normalize_hexL (t.take (n + 1)) with
    | none => simp [extract_hex_loop, descList, List.findSome?, h, ih]
    | some v => simp [extract_hex_loop, descList, List.findSome?, h]

theorem mem_descList {L n : Nat} : L ∈ descList n ↔ 1 ≤ L ∧ L ≤ n := by
  induction n with
  | zero =>
    simp only [descList, List.not_mem_nil, false_iff]
    omega
  | succ m ih =>
    simp only [descList, List.mem_cons, ih]
    omega


/-- Claim C1, counterexample: on the end-to-end text input the text-variant
parser does not produce two records — the first line starts with `#`, so
the comment rule skips it before the token is ever handed to `extract_hex`. -/
theorem C1_text_end_to_end_counterexample :
    (parse_text_file "#ff0000 Red Apple\n# a comment\nfff Snow\n").length ≠ 2 ∧
    parse_text_file "#ff0000 Red Apple\n# a comment\nfff Snow\n" ≠
      [⟨"001", "Red Apple", "#ff0000"⟩, ⟨"003", "Snow", "#ffffff"⟩] := by
  decide

/-- Claim C1, amended: the text input `"#ff0000 Red Apple\n# a comment\nfff
Snow\n"` yields exactly one record, with id `003` (line 3), name `Snow` and
hex `#ffffff`; lines 1 and 2 both start with `#` and are skipped as
comments while still counting toward line position. -/
theorem C1_text_end_to_end :
    parse_text_file "#ff0000 Red Apple\n# a comment\nfff Snow\n" =
      [⟨"003", "Snow", "#ffffff"⟩] := by
  decide

/-- Claim C2: `normalize_hex` keeps exactly the hex digits `0-9A-Fa-f` of
its input; it succeeds iff 3 or 6 digits remain, a 3-digit remainder is
expanded by duplicating each digit, a 6-digit remainder is kept, and the
successful result is the lowercased digits prefixed with `#`; in particular
`normalize_hex "FFF" = "#ffffff"` while `"12345"` (5 digits) and
`"#ab#c#d"` (4 digits) are invalid. -/
theorem C2_normalize_hex :
    (∀ s : List Char,
      (normalize_hexL s).isSome ↔
        ((s.filter isHexDig).length = 3 ∨ (s.filter isHexDig).length = 6)) ∧
    (∀ s : List Char, (s.filter isHexDig).length = 3 →
      normalize_hexL s =
        some ('#' :: (dupChars (s.filter isHexDig)).map Char.toLower)) ∧
    (∀ s : List Char, (s.filter isHexDig).length = 6 →
      normalize_hexL s = some ('#' :: (s.filter isHexDig).map Char.toLower)) ∧
    (∀ s : List Char, (s.filter isHexDig).length ≠ 3 →
      (s.filter isHexDig).length ≠ 6 → normalize_hexL s = none) ∧
    normalize_hex "FFF" = some "#ffffff" ∧
    normalize_hex "12345" = none ∧
    normalize_hex "#ab#c#d" = none := by
  refine ⟨?_, ?_, ?_, ?_, by decide, by decide, by decide⟩
  · intro s
    simp only [normalize_hexL]
    split_ifs with h3 h6
    · simp [h3]
    · simp [h6]
    · simp [h3, h6]
  · intro s h3
    simp [normalize_hexL, h3]
  · intro s h6
    simp [normalize_hexL, h6]
  · intro s h3 h6
    simp [normalize_hexL, h3, h6]

/-- Witness for C2 at a concrete input with three remaining digits. -/
theorem C2_normalize_hex_witness :
    ("xFFFx".data.filter isHexDig).length = 3 ∧
    normalize_hexL "xFFFx".data =
      some ('#' :: (dupChars ("xFFFx".data.filter isHexDig)).map Char.toLower) :=
  ⟨by decide, C2_normalize_hex.2.1 "xFFFx".data (by decide)⟩

/-- Claim C3: `extract_hex` strips the leading separator characters `;`,
`#`, `|`, `:`, space and tab, then tries prefix lengths from
`min(7, remaining length)` down to 1 and returns the first prefix that
`normalize_hex` accepts (so a longer prefix yielding 6 digits is preferred
over a shorter 3-digit match), or `none` when every length fails;
`extract_hex "fffRed" = "#ffffff"`, and the 7-character prefix of
`"ffffffx"` with one stray non-hex character still succeeds. -/
theorem C3_extract_hex :
    (∀ s : List Char,
      extract_hexL s =
        (descList (min 7 (s.dropWhile isSepChar).length)).findSome?
          (fun L => normalize_hexL ((s.dropWhile isSepChar).take L))) ∧
    (∀ s : List Char,
      (∀ L, 1 ≤ L → L ≤ min 7 (s.dropWhile isSepChar).length →
        normalize_hexL ((s.dropWhile isSepChar).take L) = none) →
      extract_hexL s = none) ∧
    extract_hex "fffRed" = some "#ffffff" ∧
    extract_hex "ffffffx" = some "#ffffff" ∧
    extract_hex "ffffff" = some "#ffffff" := by
  have hchar : ∀ s : List Char,
      extract_hexL s =
        (descList (min 7 (s.dropWhile isSepChar).length)).findSome?
          (fun L => normalize_hexL ((s.dropWhile isSepChar).take L)) := by
    intro s
    simp [extract_hexL, extract_hex_loop_eq_findSome]
  refine ⟨hchar, ?_, by decide, by decide, by decide⟩
  intro s hall
  rw [hchar s]
  apply List.findSome?_eq_none_iff.mpr
  intro L hL
  rcases mem_descList.mp hL with ⟨h1, h2⟩
  exact hall L h1 h2

/-- Witness for C3: every candidate prefix length fails on `"zz"`, so
extraction returns `none`. -/
theorem C3_extract_hex_witness : extract_hexL "zz".data = none := by
  apply C3_extract_hex.2.1 "zz".data
  intro L h1 h2
  have hlen : ("zz".data.dropWhile isSepChar).length = 2 := by decide
  rw [hlen] at h2
  norm_num at h2
  interval_cases L <;> decide

theorem hexVal_hexDigitChar :
    ∀ n : Nat, n < 16 → hexVal (hexDigitChar n) = some n := by
  decide

theorem hexDigitChar_ne_hash :
    ∀ n : Nat, n < 16 → (hexDigitChar n == '#') = false := by
  decide

/-- Claim C4: the canonical lowercase `#rrggbb` string of any byte triple is
mapped back to exactly that triple by `hex_to_rgb`; every emitted record's
hex is therefore reproducible byte-for-byte from its `rgb`. -/
theorem C4_rgb_hex_roundtrip :
    ∀ r g b : Nat, r ≤ 255 → g ≤ 255 → b ≤ 255 →
      hex_to_rgb (canonicalHexOfRgb r g b) = some (r, g, b) := by
  intro r g b hr hg hb
  have dr : r / 16 < 16 := by omega
  have mr : r % 16 < 16 := by omega
  have dg : g / 16 < 16 := by omega
  have mg : g % 16 < 16 := by omega
  have db : b / 16 < 16 := by omega
  have mb : b % 16 < 16 := by omega
  show hex_to_rgbL ('#' :: (toHex2 r ++ toHex2 g ++ toHex2 b)) = some (r, g, b)
  simp [hex_to_rgbL, toHex2, List.dropWhile_cons, hexDigitChar_ne_hash _ dr,
    parseHexNat, parseHexAux, hexVal_hexDigitChar _ dr, hexVal_hexDigitChar _ mr,
    hexVal_hexDigitChar _ dg, hexVal_hexDigitChar _ mg,
    hexVal_hexDigitChar _ db, hexVal_hexDigitChar _ mb]
  omega

/-- Witness for C4 at the byte triple (18, 52, 86). -/
theorem C4_rgb_hex_roundtrip_witness :
    hex_to_rgb (canonicalHexOfRgb 18 52 86) = some (18, 52, 86) :=
  C4_rgb_hex_roundtrip 18 52 86 (by norm_num) (by norm_num) (by norm_num)

theorem parseGo_cons_skip {i : Nat} {item : JVal} {rest : List JVal}
    (h : itemStep i item = .ok none) :
    parseGo i (item :: rest) = parseGo (i + 1) rest := by
  simp only [parseGo, h]
  cases parseGo (i + 1) rest <;> rfl

theorem parseGo_cons_error {i : Nat} {item : JVal} {rest : List JVal}
    (h : itemStep i item = .error ()) :
    parseGo i (item :: rest) = .error () := by
  simp only [parseGo, h]

/-- Claim C7, counterexample: an item whose color value is present, truthy
and not a string makes the structured parser raise (the `TypeError` from
`re.sub` inside `normalize_hex`), aborting the batch instead of skipping
the item. -/
theorem C7_json_skip_counterexample :
    parse_json_file [.obj [("color", .num 1)]] = .error () := by
  decide

/-- Claim C7, amended: the structured parser skips — without raising and
without aborting the batch — every item that is not a mapping, has no key
among `color`/`hex`/`value`, carries a falsy color value, or carries a
string color value that fails normalization; but an item whose color value
is truthy and not a string raises an uncaught `TypeError` that aborts the
whole batch. -/
theorem C7_json_skip :
    (∀ (i : Nat) (rest : List JVal) (item : JVal),
      ((∀ kvs, item ≠ JVal.obj kvs) ∨
       (∃ kvs, item = JVal.obj kvs ∧ findColorValue kvs = none) ∨
       (∃ kvs v, item = JVal.obj kvs ∧ findColorValue kvs = some v ∧
         jFalsy v = true) ∨
       (∃ kvs s, item = JVal.obj kvs ∧
         findColorValue kvs = some (JVal.str s) ∧ normalize_hex s = none)) →
      parseGo i (item :: rest) = parseGo (i + 1) rest) ∧
    (∀ (i : Nat) (rest : List JVal) (kvs : List (String × JVal)) (v : JVal),
      findColorValue kvs = some v → jFalsy v = false →
      (∀ s, v ≠ JVal.str s) →
      parseGo i (JVal.obj kvs :: rest) = Except.error ()) := by
  constructor
  · intro i rest item hcond
    apply parseGo_cons_skip
    rcases hcond with hno | ⟨kvs, hi, hfind⟩ | ⟨kvs, v, hi, hfind, hfalsy⟩ |
        ⟨kvs, s, hi, hfind, hnorm⟩
    · cases item <;> first | rfl | exact absurd rfl (hno _)
    · subst hi
      simp [itemStep, hfind]
    · subst hi
      simp [itemStep, hfind, hfalsy]
    · subst hi
      cases hf : jFalsy (JVal.str s) <;>
        simp [itemStep, hfind, hf, hnorm]
  · intro i rest kvs v hfind hfalsy hnostr
    apply parseGo_cons_error
    cases v with
    | str s => exact absurd rfl (hnostr s)
    | null => simp [jFalsy] at hfalsy
    | bool b => simp [itemStep, hfind, hfalsy]
    | num n => simp [itemStep, hfind, hfalsy]
    | arr l => simp [itemStep, hfind, hfalsy]
    | obj l => simp [itemStep, hfind, hfalsy]

/-- Witness for C7: a non-mapping item is skipped and parsing continues. -/
theorem C7_json_skip_witness :
    parse_json_file [JVal.str "junk"] = parseGo 2 [] ∧ parseGo 2 [] = .ok [] :=
  ⟨C7_json_skip.1 1 [] (JVal.str "junk")
    (Or.inl (fun _ h => JVal.noConfusion h)), rfl⟩

/-- Claim C8: when parsing yields zero valid records the run is a top-level
failure: `convert_file` returns `False` having written nothing, and `main`
exits with a non-zero status. -/
theorem C8_zero_records_failure :
    ∀ (src : SourceFile) (cut : Bool), parseSource src = .ok [] →
      convert_file src cut = .ok ⟨false, none⟩ ∧ runExit src cut = 1 := by
  intro src cut h
  have hc : convert_file src cut = .ok ⟨false, none⟩ := by
    simp [convert_file, h, convertStage]
  exact ⟨hc, by simp [runExit, hc, exitOf]⟩

/-- Witness for C8: a file holding only a comment line parses to zero
records, fails, writes nothing, and exits 1. -/
theorem C8_zero_records_failure_witness :
    parseSource (.text "# only a comment\n") = .ok [] ∧
    convert_file (.text "# only a comment\n") false = .ok ⟨false, none⟩ ∧
    runExit (.text "# only a comment\n") false = 1 := by
  have hp : parseSource (.text "# only a comment\n") = .ok [] := by decide
  rcases C8_zero_records_failure _ false hp with ⟨h1, h2⟩
  exact ⟨hp, h1, h2⟩

/-- Claim C9: a color key that is present but holds a falsy value makes the
structured parser skip the whole item without consulting the later keys of
the `color`/`hex`/`value` priority list, even when a later key holds a
valid color. -/
theorem C9_falsy_color_skips_item :
    (∀ (i : Nat) (rest : List JVal) (kvs : List (String × JVal)) (v : JVal),
      findColorValue kvs = some v → jFalsy v = true →
      parseGo i (JVal.obj kvs :: rest) = parseGo (i + 1) rest) ∧
    itemStep 1 (JVal.obj [("color", JVal.str ""), ("hex", JVal.str "#abcdef")]) =
      .ok none := by
  refine ⟨?_, by decide⟩
  intro i rest kvs v hfind hfalsy
  apply parseGo_cons_skip
  simp [itemStep, hfind, hfalsy]

/-- Witness for C9: an empty string under `color` skips the item although
`hex` holds a valid color. -/
theorem C9_falsy_color_skips_item_witness :
    findColorValue [("color", JVal.str ""), ("hex", JVal.str "#abcdef")] =
      some (JVal.str "") ∧
    parseGo 1 [JVal.obj [("color", JVal.str ""), ("hex", JVal.str "#abcdef")]] =
      parseGo 2 [] :=
  ⟨rfl, C9_falsy_color_skips_item.1 1 [] _ _ rfl rfl⟩

/-- Claim C10: the zero-record failure is checked before per-record
conversion, so a non-empty parse whose records all fail conversion still
writes the output file with an empty array, returns success, and exits 0. -/
theorem C10_all_fail_still_success :
    ∀ (colors : List ColorRecord) (cut : Bool), colors ≠ [] →
      (∀ c ∈ colors, enrichRecord cut c = none) →
      convertStage colors cut = ⟨true, some []⟩ ∧
      exitOf (convertStage colors cut) = 0 := by
  intro colors cut hne hall
  have hfm : colors.filterMap (enrichRecord cut) = [] :=
    List.filterMap_eq_nil_iff.mpr hall
  have hemp : colors.isEmpty = false := by
    cases colors with
    | nil => exact absurd rfl hne
    | cons c cs => rfl
  have h : convertStage colors cut = ⟨true, some []⟩ := by
    simp [convertStage, hemp, hfm]
  exact ⟨h, by simp [h, exitOf]⟩

theorem round1_nonneg {q : ℚ} (h : 0 ≤ q) : 0 ≤ round1 q := by
  have h2 : (0 : ℤ) ≤ round (10 * q) := by
    rw [round_eq]
    exact Int.floor_nonneg.mpr (by linarith)
  have h3 : (0 : ℚ) ≤ ((round (10 * q) : ℤ) : ℚ) := by exact_mod_cast h2
  unfold round1
  linarith

theorem round1_mono {a b : ℚ} (h : a ≤ b) : round1 a ≤ round1 b := by
  have h2 : round (10 * a) ≤ round (10 * b) := by
    rw [round_eq, round_eq]
    exact Int.floor_le_floor (by linarith)
  have h3 : ((round (10 * a) : ℤ) : ℚ) ≤ ((round (10 * b) : ℤ) : ℚ) := by
    exact_mod_cast h2
  unfold round1
  linarith

theorem round1_hundred : round1 (100 : ℚ) = 100 := by
  norm_num [round1]

theorem round1_h_cap : round1 ((360 : ℚ) - 4 / 17) = 3598 / 10 := by
  have h : round ((10 : ℚ) * (360 - 4 / 17)) = 3598 :=
    round_rat_eq _ _ (by norm_num) (by norm_num)
  unfold round1
  rw [h]
  norm_num

set_option maxHeartbeats 1000000 in
/-- Range bounds for the HSL body: on channels in `[0,1]` that are exact
multiples of `1/255` (captured by the quantisation gap hypothesis `hgap`),
the rounded hue stays strictly below 360 and saturation and lightness stay
within `[0,100]`. -/
theorem rgb_to_hsl_core_bounds (x y z H S L : ℚ)
    (hx0 : 0 ≤ x) (hx1 : x ≤ 1) (hy0 : 0 ≤ y) (hy1 : y ≤ 1)
    (hz0 : 0 ≤ z) (hz1 : z ≤ 1) (hgap : y < z → 1 / 255 ≤ z - y)
    (heq : rgb_to_hsl_core x y z = (H, S, L)) :
    0 ≤ H ∧ H < 360 ∧ 0 ≤ S ∧ S ≤ 100 ∧ 0 ≤ L ∧ L ≤ 100 := by
  have hxmx : x ≤ max x (max y z) := le_max_left _ _
  have hymx : y ≤ max x (max y z) := le_trans (le_max_left _ _) (le_max_right _ _)
  have hzmx : z ≤ max x (max y z) := le_trans (le_max_right _ _) (le_max_right _ _)
  have hmnx : min x (min y z) ≤ x := min_le_left _ _
  have hmny : min x (min y z) ≤ y := le_trans (min_le_right _ _) (min_le_left _ _)
  have hmnz : min x (min y z) ≤ z := le_trans (min_le_right _ _) (min_le_right _ _)
  have hmx1 : max x (max y z) ≤ 1 := max_le hx1 (max_le hy1 hz1)
  have hmn0 : 0 ≤ min x (min y z) := le_min hx0 (le_min hy0 hz0)
  have hmnmx : min x (min y z) ≤ max x (max y z) := le_trans hmnx hxmx
  have hS100 : ∀ q : ℚ, 0 ≤ q → q ≤ 1 →
      0 ≤ round1 (q * 100) ∧ round1 (q * 100) ≤ 100 := by
    intro q h0 h1
    refine ⟨round1_nonneg (by linarith), ?_⟩
    have hm := round1_mono (a := q * 100) (b := 100) (by linarith)
    rw [round1_hundred] at hm
    exact hm
  have hH360 : ∀ q : ℚ, 0 ≤ q → q ≤ 6 - 1 / 255 →
      0 ≤ round1 (q / 6 * 360) ∧ round1 (q / 6 * 360) < 360 := by
    intro q h0 h1
    refine ⟨round1_nonneg (by linarith), ?_⟩
    have hle := round1_mono (a := q / 6 * 360) (b := 360 - 4 / 17) (by linarith)
    rw [round1_h_cap] at hle
    linarith
  have hzero360 : round1 ((0 : ℚ) * 360) = 0 := by norm_num [round1]
  have hzero100 : round1 ((0 : ℚ) * 100) = 0 := by norm_num [round1]
  simp only [rgb_to_hsl_core] at heq
  split_ifs at heq with hmn hxr hyz hl1 hl2 hyg hl3 hl4 <;>
    (rw [Prod.mk.injEq, Prod.mk.injEq] at heq
     obtain ⟨hH, hS, hL⟩ := heq
     subst hH
     subst hS
     subst hL
     have hLb := hS100 ((max x (max y z) + min x (min y z)) / 2)
       (by linarith) (by linarith))
  -- achromatic branch
  · exact ⟨by norm_num [round1], by norm_num [round1], by norm_num [round1],
      by norm_num [round1], hLb.1, hLb.2⟩
  all_goals
    have hlt : min x (min y z) < max x (max y z) :=
      hmnmx.lt_of_ne (fun h => hmn h.symm)
  all_goals
    have hdpos : (0 : ℚ) < max x (max y z) - min x (min y z) := by linarith
  all_goals
    have hdle1 : max x (max y z) - min x (min y z) ≤ 1 := by linarith
  -- hue sector A (mx = r), g < b, lightness branches
  · have hgp := hgap hyz
    have hq0 : (0 : ℚ) ≤ (y - z) / (max x (max y z) - min x (min y z)) + 6 := by
      have hm1 : (-1 : ℚ) ≤ (y - z) / (max x (max y z) - min x (min y z)) :=
        (le_div_iff₀ hdpos).mpr (by linarith)
      linarith
    have hq6 : (y - z) / (max x (max y z) - min x (min y z)) + 6 ≤ 6 - 1 / 255 := by
      have hup : (y - z) / (max x (max y z) - min x (min y z)) ≤ -(1 / 255) :=
        (div_le_iff₀ hdpos).mpr (by nlinarith)
      linarith
    have hHb := hH360 _ hq0 hq6
    have hden : (0 : ℚ) < 2 - max x (max y z) - min x (min y z) := by linarith
    have hSb := hS100 ((max x (max y z) - min x (min y z)) /
        (2 - max x (max y z) - min x (min y z)))
      (div_nonneg (by linarith) (by linarith)) ((div_le_one hden).mpr (by linarith))
    exact ⟨hHb.1, hHb.2, hSb.1, hSb.2, hLb.1, hLb.2⟩
  · have hgp := hgap hyz
    have hq0 : (0 : ℚ) ≤ (y - z) / (max x (max y z) - min x (min y z)) + 6 := by
      have hm1 : (-1 : ℚ) ≤ (y - z) / (max x (max y z) - min x (min y z)) :=
        (le_div_iff₀ hdpos).mpr (by linarith)
      linarith
    have hq6 : (y - z) / (max x (max y z) - min x (min y z)) + 6 ≤ 6 - 1 / 255 := by
      have hup : (y - z) / (max x (max y z) - min x (min y z)) ≤ -(1 / 255) :=
        (div_le_iff₀ hdpos).mpr (by nlinarith)
      linarith
    have hHb := hH360 _ hq0 hq6
    have hden : (0 : ℚ) < max x (max y z) + min x (min y z) := by linarith
    have hSb := hS100 ((max x (max y z) - min x (min y z)) /
        (max x (max y z) + min x (min y z)))
      (div_nonneg (by linarith) (by linarith)) ((div_le_one hden).mpr (by linarith))
    exact ⟨hHb.1, hHb.2, hSb.1, hSb.2, hLb.1, hLb.2⟩
  -- hue sector A (mx = r), g ≥ b
  · have hq0 : (0 : ℚ) ≤ (y - z) / (max x (max y z) - min x (min y z)) + 0 := by
      have hnn : (0 : ℚ) ≤ (y - z) / (max x (max y z) - min x (min y z)) :=
        div_nonneg (by linarith) (by linarith)
      linarith
    have hq6 : (y - z) / (max x (max y z) - min x (min y z)) + 0 ≤ 6 - 1 / 255 := by
      have h1 : (y - z) / (max x (max y z) - min x (min y z)) ≤ 1 :=
        (div_le_one hdpos).mpr (by linarith)
      linarith
    have hHb := hH360 _ hq0 hq6
    have hden : (0 : ℚ) < 2 - max x (max y z) - min x (min y z) := by linarith
    have hSb := hS100 ((max x (max y z) - min x (min y z)) /
        (2 - max x (max y z) - min x (min y z)))
      (div_nonneg (by linarith) (by linarith)) ((div_le_one hden).mpr (by linarith))
    exact ⟨hHb.1, hHb.2, hSb.1, hSb.2, hLb.1, hLb.2⟩
  · have hq0 : (0 : ℚ) ≤ (y - z) / (max x (max y z) - min x (min y z)) + 0 := by
      have hnn : (0 : ℚ) ≤ (y - z) / (max x (max y z) - min x (min y z)) :=
        div_nonneg (by linarith) (by linarith)
      linarith
    have hq6 : (y - z) / (max x (max y z) - min x (min y z)) + 0 ≤ 6 - 1 / 255 := by
      have h1 : (y - z) / (max x (max y z) - min x (min y z)) ≤ 1 :=
        (div_le_one hdpos).mpr (by linarith)
      linarith
    have hHb := hH360 _ hq0 hq6
    have hden : (0 : ℚ) < max x (max y z) + min x (min y z) := by linarith
    have hSb := hS100 ((max x (max y z) - min x (min y z)) /
        (max x (max y z) + min x (min y z)))
      (div_nonneg (by linarith) (by linarith)) ((div_le_one hden).mpr (by linarith))
    exact ⟨hHb.1, hHb.2, hSb.1, hSb.2, hLb.1, hLb.2⟩
  -- hue sector B (mx = g)
  · have hq0 : (0 : ℚ) ≤ (z - x) / (max x (max y z) - min x (min y z)) + 2 := by
      have hm1 : (-1 : ℚ) ≤ (z - x) / (max x (max y z) - min x (min y z)) :=
        (le_div_iff₀ hdpos).mpr (by linarith)
      linarith
    have hq6 : (z - x) / (max x (max y z) - min x (min y z)) + 2 ≤ 6 - 1 / 255 := by
      have h1 : (z - x) / (max x (max y z) - min x (min y z)) ≤ 1 :=
        (div_le_one hdpos).mpr (by linarith)
      linarith
    have hHb := hH360 _ hq0 hq6
    have hden : (0 : ℚ) < 2 - max x (max y z) - min x (min y z) := by linarith
    have hSb := hS100 ((max x (max y z) - min x (min y z)) /
        (2 - max x (max y z) - min x (min y z)))
      (div_nonneg (by linarith) (by linarith)) ((div_le_one hden).mpr (by linarith))
    exact ⟨hHb.1, hHb.2, hSb.1, hSb.2, hLb.1, hLb.2⟩
  · have hq0 : (0 : ℚ) ≤ (z - x) / (max x (max y z) - min x (min y z)) + 2 := by
      have hm1 : (-1 : ℚ) ≤ (z - x) / (max x (max y z) - min x (min y z)) :=
        (le_div_iff₀ hdpos).mpr (by linarith)
      linarith
    have hq6 : (z - x) / (max x (max y z) - min x (min y z)) + 2 ≤ 6 - 1 / 255 := by
      have h1 : (z - x) / (max x (max y z) - min x (min y z)) ≤ 1 :=
        (div_le_one hdpos).mpr (by linarith)
      linarith
    have hHb := hH360 _ hq0 hq6
    have hden : (0 : ℚ) < max x (max y z) + min x (min y z) := by linarith
    have hSb := hS100 ((max x (max y z) - min x (min y z)) /
        (max x (max y z) + min x (min y z)))
      (div_nonneg (by linarith) (by linarith)) ((div_le_one hden).mpr (by linarith))
    exact ⟨hHb.1, hHb.2, hSb.1, hSb.2, hLb.1, hLb.2⟩
  -- hue sector C (mx = b)
  · have hq0 : (0 : ℚ) ≤ (x - y) / (max x (max y z) - min x (min y z)) + 4 := by
      have hm1 : (-1 : ℚ) ≤ (x - y) / (max x (max y z) - min x (min y z)) :=
        (le_div_iff₀ hdpos).mpr (by linarith)
      linarith
    have hq6 : (x - y) / (max x (max y z) - min x (min y z)) + 4 ≤ 6 - 1 / 255 := by
      have h1 : (x - y) / (max x (max y z) - min x (min y z)) ≤ 1 :=
        (div_le_one hdpos).mpr (by linarith)
      linarith
    have hHb := hH360 _ hq0 hq6
    have hden : (0 : ℚ) < 2 - max x (max y z) - min x (min y z) := by linarith
    have hSb := hS100 ((max x (max y z) - min x (min y z)) /
        (2 - max x (max y z) - min x (min y z)))
      (div_nonneg (by linarith) (by linarith)) ((div_le_one hden).mpr (by linarith))
    exact ⟨hHb.1, hHb.2, hSb.1, hSb.2, hLb.1, hLb.2⟩
  · have hq0 : (0 : ℚ) ≤ (x - y) / (max x (max y z) - min x (min y z)) + 4 := by
      have hm1 : (-1 : ℚ) ≤ (x - y) / (max x (max y z) - min x (min y z)) :=
        (le_div_iff₀ hdpos).mpr (by linarith)
      linarith
    have hq6 : (x - y) / (max x (max y z) - min x (min y z)) + 4 ≤ 6 - 1 / 255 := by
      have h1 : (x - y) / (max x (max y z) - min x (min y z)) ≤ 1 :=
        (div_le_one hdpos).mpr (by linarith)
      linarith
    have hHb := hH360 _ hq0 hq6
    have hden : (0 : ℚ) < max x (max y z) + min x (min y z) := by linarith
    have hSb := hS100 ((max x (max y z) - min x (min y z)) /
        (max x (max y z) + min x (min y z)))
      (div_nonneg (by linarith) (by linarith)) ((div_le_one hden).mpr (by linarith))
    exact ⟨hHb.1, hHb.2, hSb.1, hSb.2, hLb.1, hLb.2⟩

/-- Claim C5: for every byte triple, `rgb_to_hsl` returns H in `[0,360)`,
S in `[0,100]` and L in `[0,100]` even after rounding to one decimal;
`rgb_to_hsl (255,0,0) = (0,100,50)`, `rgb_to_hsl (0,0,0) = (0,0,0)`, and
achromatic inputs (`max = min`, i.e. any grey `(n,n,n)` such as
`(128,128,128)`) yield H = 0 and S = 0. -/
theorem C5_rgb_to_hsl :
    (∀ (r g b : Nat) (H S L : ℚ), r ≤ 255 → g ≤ 255 → b ≤ 255 →
      rgb_to_hsl (r, g, b) = (H, S, L) →
      0 ≤ H ∧ H < 360 ∧ 0 ≤ S ∧ S ≤ 100 ∧ 0 ≤ L ∧ L ≤ 100) ∧
    rgb_to_hsl (255, 0, 0) = (0, 100, 50) ∧
    rgb_to_hsl (0, 0, 0) = (0, 0, 0) ∧
    (∀ n : Nat, (rgb_to_hsl (n, n, n)).1 = 0 ∧ (rgb_to_hsl (n, n, n)).2.1 = 0) := by
  refine ⟨?_,
    by norm_num [rgb_to_hsl, rgb_to_hsl_core, max_def, min_def, round1],
    by norm_num [rgb_to_hsl, rgb_to_hsl_core, max_def, min_def, round1], ?_⟩
  · intro r g b H S L hr hg hb heq
    have hr1 : ((r : ℚ) / 255) ≤ 1 := by
      rw [div_le_one (by norm_num)]
      exact_mod_cast hr
    have hg1 : ((g : ℚ) / 255) ≤ 1 := by
      rw [div_le_one (by norm_num)]
      exact_mod_cast hg
    have hb1 : ((b : ℚ) / 255) ≤ 1 := by
      rw [div_le_one (by norm_num)]
      exact_mod_cast hb
    apply rgb_to_hsl_core_bounds ((r : ℚ) / 255) ((g : ℚ) / 255) ((b : ℚ) / 255)
      H S L (by positivity) hr1 (by positivity) hg1 (by positivity) hb1 ?_ heq
    intro hlt
    have hgb : (g : ℚ) < (b : ℚ) := by linarith
    have hnat : g < b := by exact_mod_cast hgb
    have hsucc : (g : ℚ) + 1 ≤ (b : ℚ) := by exact_mod_cast hnat
    linarith
  · intro n
    constructor
    · norm_num [rgb_to_hsl, rgb_to_hsl_core, round1]
    · norm_num [rgb_to_hsl, rgb_to_hsl_core, round1]

/-- Witness for C5 at the byte triple (1, 2, 3). -/
theorem C5_rgb_to_hsl_witness :
    0 ≤ (rgb_to_hsl (1, 2, 3)).1 ∧ (rgb_to_hsl (1, 2, 3)).1 < 360 ∧
    0 ≤ (rgb_to_hsl (1, 2, 3)).2.1 ∧ (rgb_to_hsl (1, 2, 3)).2.1 ≤ 100 ∧
    0 ≤ (rgb_to_hsl (1, 2, 3)).2.2 ∧ (rgb_to_hsl (1, 2, 3)).2.2 ≤ 100 :=
  C5_rgb_to_hsl.1 1 2 3 _ _ _ (by norm_num) (by norm_num) (by norm_num) rfl

/-- Claim C6: every full-mode record carries
`luminance = round(0.2126·R + 0.7152·G + 0.0722·B, 1)` on the raw channel
values and `is_light = (unrounded luminance > 128)` with a strict
comparison; white is light, black is not, and `(128,128,128)` — whose
luminance is exactly 128 — is not light. -/
theorem C6_luminance_is_light :
    (∀ (item : ColorRecord) (r g b : Nat),
      hex_to_rgb item.color = some (r, g, b) →
      ∃ e, enrichRecord false item = some e ∧
        e.extras = some
          { luminance := round1 ((0.2126 : ℚ) * r + 0.7152 * g + 0.0722 * b),
            is_light :=
              decide ((0.2126 : ℚ) * r + 0.7152 * g + 0.0722 * b > 128) }) ∧
    ((enrichRecord false ⟨"001", "w", "#ffffff"⟩).bind EnrichedColor.extras).map
        Extras.is_light = some true ∧
    ((enrichRecord false ⟨"002", "b", "#000000"⟩).bind EnrichedColor.extras).map
        Extras.is_light = some false ∧
    ((enrichRecord false ⟨"003", "g", "#808080"⟩).bind EnrichedColor.extras).map
        Extras.is_light = some false ∧
    lumRaw (128, 128, 128) = 128 := by
  have hw : hex_to_rgb "#ffffff" = some (255, 255, 255) := by decide
  have hb : hex_to_rgb "#000000" = some (0, 0, 0) := by decide
  have hg : hex_to_rgb "#808080" = some (128, 128, 128) := by decide
  refine ⟨?_, ?_, ?_, ?_, by norm_num [lumRaw]⟩
  · intro item r g b h
    unfold enrichRecord
    rw [h]
    exact ⟨_, rfl, rfl⟩
  · norm_num [enrichRecord, hw, lumRaw]
  · norm_num [enrichRecord, hb, lumRaw]
  · norm_num [enrichRecord, hg, lumRaw]

/-- Witness for C6 on a white record. -/
theorem C6_luminance_is_light_witness :
    ∃ e, enrichRecord false ⟨"001", "white", "#ffffff"⟩ = some e ∧
      e.extras = some
        { luminance := round1 ((0.2126 : ℚ) * ((255 : Nat) : ℚ) +
            0.7152 * ((255 : Nat) : ℚ) + 0.0722 * ((255 : Nat) : ℚ)),
          is_light := decide ((0.2126 : ℚ) * ((255 : Nat) : ℚ) +
            0.7152 * ((255 : Nat) : ℚ) + 0.0722 * ((255 : Nat) : ℚ) > 128) } :=
  C6_luminance_is_light.1 ⟨"001", "white", "#ffffff"⟩ 255 255 255 (by decide)

/-- Witness for C10: a single parsed record whose stored color cannot be
re-parsed as hex is dropped, yet the run succeeds with an empty output. -/
theorem C10_all_fail_still_success_witness :
    convertStage [⟨"001", "x", "zz"⟩] false = ⟨true, some []⟩ ∧
    exitOf (convertStage [⟨"001", "x", "zz"⟩] false) = 0 := by
  have hall : ∀ c ∈ ([⟨"001", "x", "zz"⟩] : List ColorRecord),
      enrichRecord false c = none := by
    intro c hc
    simp only [List.mem_singleton] at hc
    subst hc
    have hz : hex_to_rgb "zz" = none := by decide
    simp [enrichRecord, hz]
  exact C10_all_fail_still_success [⟨"001", "x", "zz"⟩] false (by simp) hall
